import Mathlib

/-!
Shallow embedding of the expense-tracking bot (`advanced_bot.py`) for
verification of its change-detection pipeline, conversation engine, and
query/aggregation engine.

Modelling conventions:
* A sheet is the list of rows returned by `get_all_values()`; a row is a
  list of cell strings.  `get_all_values` returns rows up to the last
  non-empty row, so middle blank rows appear as rows of empty strings.
* Machine-external effects (Telegram sends) are modelled by an oracle
  `ok : Nat → Bool` giving the outcome of the k-th dispatch attempt of a
  poll; a `false` outcome corresponds to `bot.send_message` raising, which
  aborts the whole poll body (the exception is caught by the outer
  `except` of `check_for_new_rows`, so the cursor update is skipped).
* Python `int(...)` on strings is modelled by `pyParseInt` (ASCII digits,
  optional sign, single underscores between digits, surrounding
  whitespace); Python `str.isdigit` by `pyIsDigit` (ASCII digits).
* Store reads are pure: within one poll the two reads
  (`get_current_row_count` and `get_all_values`) see the same sheet.
-/

/-- A spreadsheet row as returned by `get_all_values()`: a list of cell
strings. -/
abbrev Row := List String

/-- Whitespace characters stripped by Python `str.strip()` (ASCII
subset). -/
def pyWs (c : Char) : Bool :=
  c = ' ' || c = '\t' || c = '\n' || c = '\r' || c = '\x0b' || c = '\x0c'

/-- Python `str.strip()` on a character list: drop whitespace from both
ends. -/
def pyStripList (cs : List Char) : List Char :=
  ((cs.dropWhile pyWs).reverse.dropWhile pyWs).reverse

/-- Python `str.strip()`. -/
def pyStrip (s : String) : String :=
  ⟨pyStripList s.data⟩

/-- Python `str.replace(ch, '')`: delete every occurrence of the
character. -/
def removeChar (ch : Char) (s : String) : String :=
  ⟨s.data.filter (fun c => c ≠ ch)⟩

/-- Python `str.split(ch)` on a character list: the groups between
occurrences of the delimiter (`''.split(ch) == ['']`). -/
def splitOnChar (ch : Char) : List Char → List (List Char)
  | [] => [[]]
  | c :: rest =>
    match splitOnChar ch rest with
    | [] => [[]]
    | g :: gs => if c = ch then [] :: g :: gs else (c :: g) :: gs

/-- Python `str.split(ch)`. -/
def pySplit (ch : Char) (s : String) : List String :=
  (splitOnChar ch s.data).map (fun g => ⟨g⟩)

/-- Python `str.lower()` (ASCII range, enough for the reserved tokens the
source compares against). -/
def pyLower (s : String) : String :=
  ⟨s.data.map (fun c => if 'A' ≤ c ∧ c ≤ 'Z' then Char.ofNat (c.toNat + 32) else c)⟩

/-- `any(cell.strip() for cell in row)` — the non-blank test of
`check_for_new_rows` (line 1856): some cell is non-empty after
stripping. -/
def rowNonBlank (r : Row) : Bool :=
  r.any (fun c => !(pyStrip c).data.isEmpty)

/-- Digit run with single underscores allowed between digits, accumulating
the value — the tail of Python's integer-literal grammar used by
`int(str)`. -/
def pyDigitsAux (acc : Nat) : List Char → Option Nat
  | [] => some acc
  | '_' :: c :: rest =>
      if c.isDigit then pyDigitsAux (acc * 10 + (c.toNat - 48)) rest else none
  | c :: rest =>
      if c.isDigit then pyDigitsAux (acc * 10 + (c.toNat - 48)) rest else none

/-- A non-empty digit string (underscores between digits allowed), as
accepted by Python `int(str)` after sign and whitespace handling. -/
def pyDigits (cs : List Char) : Option Nat :=
  match cs with
  | [] => none
  | c :: rest => if c.isDigit then pyDigitsAux (c.toNat - 48) rest else none

/-- Python `int(s)` for strings: strips surrounding whitespace, accepts an
optional sign followed by digits (with single underscores between digits);
`none` models `ValueError`. -/
def pyParseInt (s : String) : Option Int :=
  match pyStripList s.data with
  | '+' :: rest => (pyDigits rest).map Int.ofNat
  | '-' :: rest => (pyDigits rest).map (fun n => -(n : Int))
  | cs => (pyDigits cs).map Int.ofNat

/-- Python `str.isdigit()` restricted to ASCII: non-empty and all digit
characters. -/
def pyIsDigit (s : String) : Bool :=
  !s.data.isEmpty && s.data.all Char.isDigit

/-- Value of an all-digit string, as computed by Python `int` on it. -/
def digitVal (s : String) : Nat :=
  s.data.foldl (fun n c => n * 10 + (c.toNat - 48)) 0

/-- State of the change-detection pipeline for the active sheet:
`sheet` is the current `get_all_values()` contents, `last_row_count` the
persisted cursor (`self.last_row_count` / `last_row_<sheet>.txt`). -/
structure BotState where
  sheet : List Row
  last_row_count : Nat
deriving DecidableEq, Repr

/-- The dispatch loop of `check_for_new_rows` (lines 1855–1870): walks the
pending rows, skipping all-blank ones; each non-blank row is sent with
1-based row number `base + 1`, `base + 2`, ….  `ok k` is the outcome of
the k-th send of this poll; a failed send raises, aborting the loop.
Returns the row numbers actually sent and whether the loop completed. -/
def dispatch_new_rows (ok : Nat → Bool) : Nat → Nat → List Row → List Nat × Bool
  | _, _, [] => ([], true)
  | attempt, base, r :: rs =>
    if rowNonBlank r then
      if ok attempt then
        let p := dispatch_new_rows ok (attempt + 1) (base + 1) rs
        ((base + 1) :: p.1, p.2)
      else ([], false)
    else
      dispatch_new_rows ok attempt (base + 1) rs

/-- `check_for_new_rows` (lines 1829–1877), for polls within a single
period (the month-switch branch of lines 1832–1843 not taken).  Reads the
current row count `n`; if `n > last_row_count`, dispatches the rows
`sheet[last_row_count:]` and, only when every dispatch succeeded, sets and
persists the cursor to `n`.  A dispatch failure raises, so the cursor
update is skipped and the outer `except` swallows the exception.
Returns (new state, sent row numbers, completed without failure). -/
def check_for_new_rows (ok : Nat → Bool) (st : BotState) : BotState × List Nat × Bool :=
  let n := st.sheet.length
  if st.last_row_count < n then
    let p := dispatch_new_rows ok 0 st.last_row_count (st.sheet.drop st.last_row_count)
    if p.2 then ({ st with last_row_count := n }, p.1, true)
    else (st, p.1, false)
  else
    (st, [], true)

/-- The always-successful dispatch oracle. -/
def allOk : Nat → Bool := fun _ => true

/-- `reset_position_command` (lines 744–769): sets and persists the cursor
to the current row count. -/
def reset_position_command (st : BotState) : BotState :=
  { st with last_row_count := st.sheet.length }

/-- The delete branch of `handle_edit_delete_response` (lines 1724–1732):
deletes 1-based row `idx` and re-syncs the cursor to the new row count. -/
def delete_row_flow (st : BotState) (idx : Nat) : BotState :=
  let sheet2 := st.sheet.eraseIdx (idx - 1)
  { sheet := sheet2, last_row_count := sheet2.length }

/-- `add_expense_to_sheet` (lines 266–292) inserts at row
`len(get_all_values()) + 1`, i.e. appends the row to the value region. -/
def add_expense_to_sheet (st : BotState) (r : Row) : BotState :=
  { st with sheet := st.sheet ++ [r] }

/-! ## Sheet Router: month sheet creation and cursor initialization -/

/-- `get_sheet_name_for_month` (lines 73–83). -/
def get_sheet_name_for_month (year month : Nat) : String :=
  let month_names := ["", "Tháng 1", "Tháng 2", "Tháng 3", "Tháng 4", "Tháng 5",
    "Tháng 6", "Tháng 7", "Tháng 8", "Tháng 9", "Tháng 10", "Tháng 11", "Tháng 12"]
  (month_names.getD month "") ++ " " ++ toString year

/-- The header row inserted at row 1 on sheet creation (line 100). -/
def headerRow : Row := ["Ngày", "Mô tả", "Số tiền", "Danh mục", "Người chi", "Ghi chú"]

/-- An untouched row of the six-column grid. -/
def blankRow : Row := ["", "", "", "", "", ""]

/-- The value region of a freshly created month sheet, as `get_all_values()`
returns it: `ensure_current_month_sheet` (lines 94–125) inserts the header
at row 1 and `setup_summary_section` (lines 127–151) writes summary labels
into column A of rows 50, 52, 53, 54, 56 and formulas into column B of
rows 52–54 (formula cells modelled by their formula text; gspread would
return their computed values, which are likewise non-blank).  The last
non-empty row is 56, so the region has 56 rows. -/
def new_month_sheet : List Row :=
  [headerRow] ++ List.replicate 48 blankRow ++
  [["TỔNG KẾT THÁNG", "", "", "", "", ""],
   blankRow,
   ["Tổng chi tiêu:", "=SUM(C2:C49)", "", "", "", ""],
   ["Số giao dịch:", "=COUNTA(C2:C49)", "", "", "", ""],
   ["Chi tiêu trung bình:", "=B52/B53", "", "", "", ""],
   blankRow,
   ["CHI TIẾT THEO DANH MỤC", "", "", "", "", ""]]

/-- `get_last_row_count` (lines 230–245) when no cursor file exists for the
sheet (the new-period case): the cursor is initialized to
`len(self.current_sheet.get_all_values())` and persisted. -/
def get_last_row_count (sheet : List Row) : Nat :=
  sheet.length

/-! ## Conversation Engine (interactive /add flow) -/

/-- States of the add-expense `ConversationHandler` (line 23), plus the
terminal `ConversationHandler.END`. -/
inductive ConvState where
  | description
  | amount
  | category
  | person
  | note
  | ended
deriving DecidableEq, Repr

/-- `context.user_data` during the add flow: fields absent until their
step stores them. -/
structure UserData where
  description : Option String := none
  amount : Option Int := none
  category : Option String := none
  person : Option String := none
deriving DecidableEq, Repr

/-- The empty `user_data` dictionary. -/
def emptyData : UserData := {}

/-- A committed expense record, as passed to `add_expense_to_sheet`. -/
structure ExpenseRecord where
  description : String
  amount : Int
  category : String
  person : String
  note : String
deriving DecidableEq, Repr

/-- The amount grammar of the interactive flow, `get_amount`
(lines 638–654): `int(text.replace(',', '').replace('.', ''))`. -/
def interactive_amount (s : String) : Option Int :=
  pyParseInt (removeChar '.' (removeChar ',' s))

/-- One message of the add-expense conversation: the handler for the
current state (`get_description` 628–636, `get_amount` 638–654,
`get_category` 656–664, `get_person` 666–674, `get_note` 676–712).
Returns the next state, the updated `user_data`, and the record committed
to the sheet (only `get_note` commits, then clears the session). -/
def conv_step (st : ConvState) (d : UserData) (text : String) :
    ConvState × UserData × Option ExpenseRecord :=
  match st with
  | .description => (.amount, { d with description := some text }, none)
  | .amount =>
      match interactive_amount text with
      | some a => (.category, { d with amount := some a }, none)
      | none => (.amount, d, none)
  | .category => (.person, { d with category := some text }, none)
  | .person => (.note, { d with person := some text }, none)
  | .note =>
      let noteVal := if pyLower text == "skip" then "" else text
      match d.description, d.amount, d.category, d.person with
      | some de, some a, some c, some p =>
          (.ended, emptyData, some ⟨de, a, c, p, noteVal⟩)
      | _, _, _, _ => (.ended, emptyData, none)
  | .ended => (.ended, d, none)

/-- Run a sequence of user messages through the conversation from a given
state, collecting the committed records in order. -/
def conv_run : ConvState → UserData → List String → ConvState × UserData × List ExpenseRecord
  | st, d, [] => (st, d, [])
  | st, d, t :: ts =>
    let p := conv_step st d t
    let q := conv_run p.1 p.2.1 ts
    (q.1, q.2.1, p.2.2.toList ++ q.2.2)

/-! ## Quick-entry path (/quick) -/

/-- The parsing/validation part of `quick_add` (lines 553–591), applied to
the text after the `/quick ` prefix: empty text or fewer than 4
pipe-separated fields is a validation error; the amount field must parse
as a Python integer.  Returns (description, amount, category, person,
note). -/
def quick_parse (text : String) : Option (String × Int × String × String × String) :=
  let t := pyStrip text
  if t.data.isEmpty then none
  else
    let parts := pySplit '|' t
    if parts.length < 4 then none
    else
      match pyParseInt (parts.getD 1 "") with
      | none => none
      | some amount =>
          some (pyStrip (parts.getD 0 ""), amount, pyStrip (parts.getD 2 ""),
            pyStrip (parts.getD 3 ""),
            if 4 < parts.length then pyStrip (parts.getD 4 "") else "")

/-- `quick_add` end to end on the table store (lines 553–617): on any
validation failure the handler returns before `add_expense_to_sheet`, so
the sheet is untouched; on success the parsed record is appended as a row
(`dateStr` is today's formatted date). -/
def quick_add (st : BotState) (dateStr text : String) : BotState :=
  match quick_parse text with
  | none => st
  | some (de, a, c, p, noteVal) =>
      add_expense_to_sheet st [dateStr, de, toString a, c, p, noteVal]

/-! ## Query/Aggregation Engine -/

/-- The data-row filter of `get_monthly_summary` (lines 307–310), applied
to `get_all_values()[1:]`:
`len(row) >= 3 and row[2].strip() and row[2].replace(',', '').isdigit()`. -/
def validExpenseRow (r : Row) : Bool :=
  decide (3 ≤ r.length) && !(pyStrip (r.getD 2 "")).data.isEmpty &&
    pyIsDigit (removeChar ',' (r.getD 2 ""))

/-- `int(row[2].replace(',', ''))` for a row passing the filter. -/
def rowAmount (r : Row) : Nat :=
  digitVal (removeChar ',' (r.getD 2 ""))

/-- Category key used by `get_monthly_summary` (line 330):
`row[3] if len(row) > 3 else 'Khác'` — note no blank check. -/
def rowCategoryM (r : Row) : String :=
  if 3 < r.length then r.getD 3 "" else "Khác"

/-- Person key used by `get_monthly_summary` (line 337):
`row[4] if len(row) > 4 else 'Không rõ'`. -/
def rowPersonM (r : Row) : String :=
  if 4 < r.length then r.getD 4 "" else "Không rõ"

/-- Category key used by `calculate_summary_from_rows` (line 820):
`row[3] if len(row) > 3 and row[3].strip() else 'Khác'`. -/
def rowCategoryC (r : Row) : String :=
  if 3 < r.length && !(pyStrip (r.getD 3 "")).data.isEmpty then r.getD 3 "" else "Khác"

/-- Person key used by `calculate_summary_from_rows` (line 827). -/
def rowPersonC (r : Row) : String :=
  if 4 < r.length && !(pyStrip (r.getD 4 "")).data.isEmpty then r.getD 4 "" else "Không rõ"

/-- `d[k] = d.get(k, 0) + v` on a Python dict modelled as an
insertion-ordered association list. -/
def dictAdd (d : List (String × Nat)) (k : String) (v : Nat) : List (String × Nat) :=
  if d.any (fun p => p.1 == k) then
    d.map (fun p => if p.1 == k then (p.1, p.2 + v) else p)
  else
    d ++ [(k, v)]

/-- `d.get(k, 0)` on the association-list dict. -/
def dictGet (d : List (String × Nat)) (k : String) : Nat :=
  match d.find? (fun p => p.1 == k) with
  | some p => p.2
  | none => 0

/-- The grouping loops of both summary functions (lines 328–339 and
817–829): fold the rows into a dict keyed by `key`. -/
def groupSums (key : Row → String) (rows : List Row) : List (String × Nat) :=
  rows.foldl (fun d r => dictAdd d (key r) (rowAmount r)) []

/-- Summary record produced by the aggregation functions. -/
structure Summary where
  total : Nat
  count : Nat
  average : ℚ
  by_category : List (String × Nat)
  by_person : List (String × Nat)
deriving DecidableEq, Repr

/-- The pure core of `get_monthly_summary` (lines 294–352), applied to
`get_all_values()[1:]` (header already dropped): filters the data rows,
then computes total, count, average (0 when there are no data rows) and
the groupings. -/
def get_monthly_summary (all_data : List Row) : Summary :=
  let data_rows := all_data.filter validExpenseRow
  if data_rows.isEmpty then
    { total := 0, count := 0, average := 0, by_category := [], by_person := [] }
  else
    let total := (data_rows.map rowAmount).sum
    let count := data_rows.length
    { total := total
      count := count
      average := (total : ℚ) / (count : ℚ)
      by_category := groupSums rowCategoryM data_rows
      by_person := groupSums rowPersonM data_rows }

/-- `calculate_summary_from_rows` (lines 802–837): no amount filtering of
its own (callers pre-filter); blank-or-missing category/person map to the
fixed buckets. -/
def calculate_summary_from_rows (rows : List Row) : Summary :=
  if rows.isEmpty then
    { total := 0, count := 0, average := 0, by_category := [], by_person := [] }
  else
    let total := (rows.map rowAmount).sum
    let count := rows.length
    { total := total
      count := count
      average := (total : ℚ) / (count : ℚ)
      by_category := groupSums rowCategoryC rows
      by_person := groupSums rowPersonC rows }

/-! ## Month comparison (/compare) -/

/-- Per-month data collected by `compare_command` (lines 1102–1112). -/
structure MonthData where
  name : String
  total : Nat
  by_category : List (String × Nat)
deriving DecidableEq, Repr

/-- Python string comparison `s < t` on character lists: lexicographic by
code point. -/
def chLt : List Char → List Char → Bool
  | [], [] => false
  | [], _ :: _ => true
  | _ :: _, [] => false
  | a :: as, b :: bs =>
    if a < b then true else if b < a then false else chLt as bs

/-- Python string comparison `s < t` (lexicographic by code point). -/
def pyStrLt (s t : String) : Bool :=
  chLt s.data t.data

/-- Stable insertion keeping the list in descending `name` order:
a new element goes after all existing elements with names ≥ its own,
matching the stability of Python `list.sort(key=name, reverse=True)`. -/
def insertByNameDesc (x : MonthData) : List MonthData → List MonthData
  | [] => [x]
  | y :: ys =>
    if pyStrLt y.name x.name then x :: y :: ys else y :: insertByNameDesc x ys

/-- `month_data.sort(key=lambda x: x['name'], reverse=True)` (line 1119):
stable sort by name, descending in Python's code-point string order. -/
def sortByNameDesc (l : List MonthData) : List MonthData :=
  l.foldl (fun acc x => insertByNameDesc x acc) []

/-- One reported category change: (category, change, current amount,
previous amount), as built at line 1162. -/
abbrev CategoryChange := String × Int × Nat × Nat

/-- Stable insertion by descending `abs(change)`
(`category_changes.sort(key=lambda x: abs(x[1]), reverse=True)`,
line 1165). -/
def insertByAbsDesc (x : CategoryChange) : List CategoryChange → List CategoryChange
  | [] => [x]
  | y :: ys =>
      if y.2.1.natAbs < x.2.1.natAbs then x :: y :: ys else y :: insertByAbsDesc x ys

/-- Stable sort by descending absolute change. -/
def sortByAbsDesc (l : List CategoryChange) : List CategoryChange :=
  l.foldl (fun acc x => insertByAbsDesc x acc) []

/-- Result of the latest-two-months comparison of `compare_command`. -/
structure CompareReport where
  current : MonthData
  previous : MonthData
  diff : Int
  diff_percent : ℚ
  category_changes : List CategoryChange
deriving DecidableEq, Repr

/-- The pure core of `compare_command` (lines 1090–1171) after the month
summaries have been materialized: keeps months with positive totals
(lines 1102–1112), requires at least two (line 1114), sorts by name
descending (line 1119), compares the first two (lines 1130–1146:
`diff = current - previous`, percentage against `previous` when positive),
and keeps category changes with `abs(change) > 10000` sorted by absolute
change descending, reporting the top 5 (lines 1148–1171).  The union of
category keys is a Python `set`, whose iteration order is unspecified;
the model fixes the deduplicated concatenation order, and the properties
proved about the changes list do not depend on that order. -/
def compare_command (months : List MonthData) : Option CompareReport :=
  let month_data := months.filter (fun m => 0 < m.total)
  if month_data.length < 2 then none
  else
    match sortByNameDesc month_data with
    | current :: previous :: _ =>
        let diff : Int := (current.total : Int) - (previous.total : Int)
        let diff_percent : ℚ :=
          if 0 < previous.total then (diff : ℚ) / (previous.total : ℚ) * 100 else 0
        let all_categories :=
          (current.by_category.map Prod.fst ++ previous.by_category.map Prod.fst).eraseDups
        let category_changes := all_categories.filterMap (fun c =>
          let currAmt := dictGet current.by_category c
          let prevAmt := dictGet previous.by_category c
          let change : Int := (currAmt : Int) - (prevAmt : Int)
          if 10000 < change.natAbs then some (c, change, currAmt, prevAmt) else none)
        some { current := current, previous := previous, diff := diff,
               diff_percent := diff_percent,
               category_changes := (sortByAbsDesc category_changes).take 5 }
    | _ => none

/-! ## Append/poll traces for the Change Detector -/

/-- External events against the active sheet: a row append (by the user,
another client, or the bot itself) or one execution of the polling body. -/
inductive SheetOp where
  | append : Row → SheetOp
  | poll : SheetOp

/-- Run a sequence of appends and failure-free polls, accumulating the
dispatched row numbers. -/
def run_ops : BotState → List Nat → List SheetOp → BotState × List Nat
  | st, hist, [] => (st, hist)
  | st, hist, SheetOp.append r :: rest =>
      run_ops { st with sheet := st.sheet ++ [r] } hist rest
  | st, hist, SheetOp.poll :: rest =>
      let p := check_for_new_rows allOk st
      run_ops p.1 (hist ++ p.2.1) rest

/-- A state whose cursor agrees with the sheet it observes (the situation
right after a successful poll or a fresh cursor initialization). -/
def syncedState (sheet0 : List Row) : BotState :=
  { sheet := sheet0, last_row_count := sheet0.length }

/-! ## Helper definitions for the detector proofs -/

/-- Specification-side description of what a failure-free dispatch pass
sends: the 1-based row numbers `base + i + 1` of the non-blank rows. -/
def nonBlankIdx : Nat → List Row → List Nat
  | _, [] => []
  | base, r :: rs =>
    if rowNonBlank r then (base + 1) :: nonBlankIdx (base + 1) rs
    else nonBlankIdx (base + 1) rs

/-- Invariant of the Change Detector run from a synced state whose initial
row count was `len0`: the cursor stays between `len0` and the sheet
length, and the dispatch history is exactly the set of non-blank 1-based
row numbers in `(len0, cursor]`, in strictly ascending order (hence each
dispatched at most once). -/
def PollInv (len0 : Nat) (st : BotState) (hist : List Nat) : Prop :=
  len0 ≤ st.last_row_count ∧ st.last_row_count ≤ st.sheet.length ∧
  List.Pairwise (· < ·) hist ∧
  ∀ j, j ∈ hist ↔
    (len0 < j ∧ j ≤ st.last_row_count ∧ rowNonBlank (st.sheet.getD (j - 1) []) = true)

/-! ## Helper lemmas: the dispatch loop under an all-success oracle -/

theorem dispatch_allOk (rows : List Row) : ∀ a base,
    dispatch_new_rows allOk a base rows = (nonBlankIdx base rows, true) := by
  induction rows with
  | nil => intro a base; rfl
  | cons r rs ih =>
      intro a base
      by_cases hr : rowNonBlank r <;>
        simp [dispatch_new_rows, nonBlankIdx, hr, allOk, ih]

theorem mem_nonBlankIdx {j : Nat} : ∀ (rows : List Row) (base : Nat),
    j ∈ nonBlankIdx base rows ↔
      ∃ i, i < rows.length ∧ j = base + i + 1 ∧ rowNonBlank (rows.getD i []) = true := by
  intro rows
  induction rows with
  | nil => intro base; simp [nonBlankIdx]
  | cons r rs ih =>
      intro base
      by_cases hr : rowNonBlank r
      · simp only [nonBlankIdx, if_pos hr, List.mem_cons, ih (base + 1)]
        constructor
        · rintro (rfl | ⟨i, hi, rfl, hnb⟩)
          · exact ⟨0, by simp, by omega, by simpa using hr⟩
          · exact ⟨i + 1, by simpa using Nat.succ_lt_succ hi, by omega, by simpa using hnb⟩
        · rintro ⟨i, hi, rfl, hnb⟩
          cases i with
          | zero => left; omega
          | succ i =>
              right
              exact ⟨i, by simpa using Nat.lt_of_succ_lt_succ hi, by omega, by simpa using hnb⟩
      · simp only [nonBlankIdx, if_neg hr, ih (base + 1)]
        constructor
        · rintro ⟨i, hi, rfl, hnb⟩
          exact ⟨i + 1, by simpa using Nat.succ_lt_succ hi, by omega, by simpa using hnb⟩
        · rintro ⟨i, hi, rfl, hnb⟩
          cases i with
          | zero =>
              exfalso
              simp only [List.getD_cons_zero] at hnb
              exact hr hnb
          | succ i =>
              exact ⟨i, by simpa using Nat.lt_of_succ_lt_succ hi, by omega, by simpa using hnb⟩

theorem nonBlankIdx_gt {j : Nat} : ∀ (rows : List Row) (base : Nat),
    j ∈ nonBlankIdx base rows → base < j := by
  intro rows base hj
  obtain ⟨i, _, rfl, _⟩ := (mem_nonBlankIdx rows base).mp hj
  omega

theorem nonBlankIdx_le {j : Nat} : ∀ (rows : List Row) (base : Nat),
    j ∈ nonBlankIdx base rows → j ≤ base + rows.length := by
  intro rows base hj
  obtain ⟨i, hi, rfl, _⟩ := (mem_nonBlankIdx rows base).mp hj
  omega

theorem nonBlankIdx_pairwise : ∀ (rows : List Row) (base : Nat),
    List.Pairwise (· < ·) (nonBlankIdx base rows) := by
  intro rows
  induction rows with
  | nil => intro base; simp [nonBlankIdx]
  | cons r rs ih =>
      intro base
      by_cases hr : rowNonBlank r
      · simp only [nonBlankIdx, if_pos hr, List.pairwise_cons]
        exact ⟨fun j hj => nonBlankIdx_gt rs (base + 1) hj, ih (base + 1)⟩
      · simpa only [nonBlankIdx, if_neg hr] using ih (base + 1)

theorem getD_drop : ∀ (l : List Row) (i j : Nat),
    (l.drop i).getD j [] = l.getD (i + j) []
  | _, 0, _ => by simp
  | [], _ + 1, _ => by simp
  | x :: xs, i + 1, j => by
      have h : i + 1 + j = (i + j) + 1 := by omega
      rw [List.drop_succ_cons, h, List.getD_cons_succ]
      exact getD_drop xs i j

/-- A failure-free poll: the cursor ends at the row count (when it was
not already at or past it, the state is unchanged otherwise), and exactly
the non-blank pending row numbers are sent. -/
theorem check_allOk_char (st : BotState) :
    check_for_new_rows allOk st =
      if st.last_row_count < st.sheet.length then
        ({ st with last_row_count := st.sheet.length },
          nonBlankIdx st.last_row_count (st.sheet.drop st.last_row_count), true)
      else (st, [], true) := by
  by_cases h : st.last_row_count < st.sheet.length <;>
    simp [check_for_new_rows, h, dispatch_allOk]

/-- A poll that was aborted by a dispatch failure leaves the state
(cursor and sheet) untouched. -/
theorem check_fail_unchanged (st : BotState) (ok : Nat → Bool)
    (hfail : (check_for_new_rows ok st).2.2 = false) :
    (check_for_new_rows ok st).1 = st := by
  unfold check_for_new_rows at hfail ⊢
  by_cases h : st.last_row_count < st.sheet.length
  · simp only [if_pos h] at hfail ⊢
    by_cases hc : (dispatch_new_rows ok 0 st.last_row_count
        (st.sheet.drop st.last_row_count)).2
    · simp [hc] at hfail
    · simp [hc]
  · simp [if_neg h]

theorem dispatch_sent_gt (ok : Nat → Bool) : ∀ (rows : List Row) (a base j : Nat),
    j ∈ (dispatch_new_rows ok a base rows).1 → base < j := by
  intro rows
  induction rows with
  | nil => intro a base j hj; simp [dispatch_new_rows] at hj
  | cons r rs ih =>
      intro a base j hj
      by_cases hr : rowNonBlank r
      · by_cases hok : ok a
        · simp only [dispatch_new_rows, hr, hok, if_true, List.mem_cons] at hj
          rcases hj with rfl | hj
          · omega
          · have := ih (a + 1) (base + 1) j hj
            omega
        · simp [dispatch_new_rows, hr, hok] at hj
      · simp only [dispatch_new_rows, hr, if_false, Bool.false_eq_true] at hj
        have := ih a (base + 1) j hj
        omega

theorem pollInv_append (len0 : Nat) (st : BotState) (hist : List Nat) (r : Row)
    (h : PollInv len0 st hist) :
    PollInv len0 { st with sheet := st.sheet ++ [r] } hist := by
  obtain ⟨h0, h1, h2, h3⟩ := h
  refine ⟨h0, ?_, h2, fun j => ?_⟩
  · show st.last_row_count ≤ (st.sheet ++ [r]).length
    rw [List.length_append]
    omega
  · show j ∈ hist ↔
      (len0 < j ∧ j ≤ st.last_row_count ∧
        rowNonBlank ((st.sheet ++ [r]).getD (j - 1) []) = true)
    constructor
    · intro hj
      obtain ⟨ha, hb, hc⟩ := (h3 j).mp hj
      refine ⟨ha, hb, ?_⟩
      rw [List.getD_append _ _ _ _ (show j - 1 < st.sheet.length by omega)]
      exact hc
    · rintro ⟨ha, hb, hc⟩
      refine (h3 j).mpr ⟨ha, hb, ?_⟩
      rwa [List.getD_append _ _ _ _ (show j - 1 < st.sheet.length by omega)] at hc

theorem pollInv_poll (len0 : Nat) (st : BotState) (hist : List Nat)
    (h : PollInv len0 st hist) :
    PollInv len0 (check_for_new_rows allOk st).1
      (hist ++ (check_for_new_rows allOk st).2.1) := by
  obtain ⟨h0, h1, h2, h3⟩ := h
  rw [check_allOk_char]
  by_cases hc : st.last_row_count < st.sheet.length
  · simp only [if_pos hc]
    refine ⟨?_, ?_, ?_, fun j => ?_⟩
    · show len0 ≤ st.sheet.length
      omega
    · show st.sheet.length ≤ st.sheet.length
      exact le_refl _
    · refine (List.pairwise_append).mpr ⟨h2, nonBlankIdx_pairwise _ _, ?_⟩
      intro a ha b hb
      have ha2 := ((h3 a).mp ha).2.1
      have hb2 := nonBlankIdx_gt _ _ hb
      omega
    · show j ∈ hist ++ nonBlankIdx st.last_row_count (st.sheet.drop st.last_row_count) ↔
        (len0 < j ∧ j ≤ st.sheet.length ∧ rowNonBlank (st.sheet.getD (j - 1) []) = true)
      rw [List.mem_append, h3 j, mem_nonBlankIdx]
      constructor
      · rintro (⟨ha, hb, hcc⟩ | ⟨i, hi, rfl, hnb⟩)
        · exact ⟨ha, by omega, hcc⟩
        · rw [List.length_drop] at hi
          refine ⟨by omega, by omega, ?_⟩
          rw [getD_drop] at hnb
          have heq : st.last_row_count + i + 1 - 1 = st.last_row_count + i := by omega
          rwa [heq]
      · rintro ⟨ha, hb, hcc⟩
        by_cases hj : j ≤ st.last_row_count
        · exact Or.inl ⟨ha, hj, hcc⟩
        · refine Or.inr ⟨j - st.last_row_count - 1, ?_, by omega, ?_⟩
          · rw [List.length_drop]; omega
          · rw [getD_drop]
            have heq : st.last_row_count + (j - st.last_row_count - 1) = j - 1 := by omega
            rwa [heq]
  · simp only [if_neg hc, List.append_nil]
    exact ⟨h0, h1, h2, h3⟩

theorem run_ops_inv (len0 : Nat) : ∀ (ops : List SheetOp) (st : BotState) (hist : List Nat),
    PollInv len0 st hist →
    PollInv len0 (run_ops st hist ops).1 (run_ops st hist ops).2 := by
  intro ops
  induction ops with
  | nil => intro st hist h; exact h
  | cons op rest ih =>
      intro st hist h
      cases op with
      | append r => exact ih _ _ (pollInv_append len0 st hist r h)
      | poll => exact ih _ _ (pollInv_poll len0 st hist h)

theorem pollInv_init (sheet0 : List Row) :
    PollInv sheet0.length (syncedState sheet0) [] := by
  refine ⟨le_refl _, le_refl _, List.Pairwise.nil, fun j => ?_⟩
  simp only [List.not_mem_nil, false_iff, syncedState]
  rintro ⟨ha, hb, _⟩
  omega

theorem check_sent_gt (ok : Nat → Bool) (st : BotState) :
    ∀ j ∈ (check_for_new_rows ok st).2.1, st.last_row_count < j := by
  intro j hj
  unfold check_for_new_rows at hj
  by_cases h : st.last_row_count < st.sheet.length
  · simp only [if_pos h] at hj
    by_cases hp : (dispatch_new_rows ok 0 st.last_row_count
        (st.sheet.drop st.last_row_count)).2
    · simp only [hp, if_true] at hj
      exact dispatch_sent_gt ok _ 0 st.last_row_count j hj
    · simp only [hp, Bool.false_eq_true, if_false] at hj
      exact dispatch_sent_gt ok _ 0 st.last_row_count j hj
  · simp only [if_neg h] at hj
    simp at hj

/-- C1: if notification dispatch fails partway through a batch of pending
new rows, the poll does not advance the cursor past the last successfully
dispatched row (the cursor is left unchanged, strictly below every
dispatched row number), so a later failure-free poll re-delivers every
pending non-blank row — in particular every undelivered one — and no
appended non-blank row is silently skipped (at-least-once delivery). -/
theorem C1_dispatch_failure_no_skip (st : BotState) (ok : Nat → Bool)
    (hfail : (check_for_new_rows ok st).2.2 = false) :
    (check_for_new_rows ok st).1.last_row_count = st.last_row_count ∧
    (∀ j ∈ (check_for_new_rows ok st).2.1, st.last_row_count < j) ∧
    ∀ i, i < st.sheet.length - st.last_row_count →
      rowNonBlank ((st.sheet.drop st.last_row_count).getD i []) = true →
      st.last_row_count + i + 1 ∈
        (check_for_new_rows allOk (check_for_new_rows ok st).1).2.1 := by
  have hst := check_fail_unchanged st ok hfail
  refine ⟨by rw [hst], check_sent_gt ok st, ?_⟩
  intro i hi hnb
  rw [hst, check_allOk_char]
  have hlt : st.last_row_count < st.sheet.length := by omega
  simp only [if_pos hlt]
  show st.last_row_count + i + 1 ∈
    nonBlankIdx st.last_row_count (st.sheet.drop st.last_row_count)
  exact (mem_nonBlankIdx _ _).mpr ⟨i, by rw [List.length_drop]; omega, rfl, hnb⟩

/-- Concrete instance of C1: cursor 1 over 4 rows, the second dispatch of
the poll fails; the cursor stays at 1 and the undelivered row 4 is
delivered by the failure-free re-poll. -/
theorem C1_dispatch_failure_no_skip_witness :
    (check_for_new_rows (fun k => decide (k = 0))
      (BotState.mk [["h"], ["a"], ["b"], ["c"]] 1)).2.2 = false ∧
    (check_for_new_rows (fun k => decide (k = 0))
      (BotState.mk [["h"], ["a"], ["b"], ["c"]] 1)).1.last_row_count = 1 ∧
    1 + 2 + 1 ∈ (check_for_new_rows allOk
      ((check_for_new_rows (fun k => decide (k = 0))
        (BotState.mk [["h"], ["a"], ["b"], ["c"]] 1)).1)).2.1 :=
  ⟨by decide,
    (C1_dispatch_failure_no_skip (BotState.mk [["h"], ["a"], ["b"], ["c"]] 1)
      (fun k => decide (k = 0)) (by decide)).1,
    (C1_dispatch_failure_no_skip (BotState.mk [["h"], ["a"], ["b"], ["c"]] 1)
      (fun k => decide (k = 0)) (by decide)).2.2 2 (by decide) (by decide)⟩

/-- C2: over any sequence of appends and failure-free polls starting from
a synced state, the dispatch history is strictly ascending (so every row
is notified at most once, in ascending row order) and contains exactly
the non-blank rows appended beyond the initial contents and already
covered by the cursor; the cursor never exceeds the row count, and any
failure-free poll from a consistent state advances the cursor exactly to
the current row count. -/
theorem C2_detector_exactly_once (sheet0 : List Row) (ops : List SheetOp) :
    List.Pairwise (· < ·) (run_ops (syncedState sheet0) [] ops).2 ∧
    (∀ j, j ∈ (run_ops (syncedState sheet0) [] ops).2 ↔
      (sheet0.length < j ∧
        j ≤ (run_ops (syncedState sheet0) [] ops).1.last_row_count ∧
        rowNonBlank
          ((run_ops (syncedState sheet0) [] ops).1.sheet.getD (j - 1) []) = true)) ∧
    (run_ops (syncedState sheet0) [] ops).1.last_row_count ≤
      (run_ops (syncedState sheet0) [] ops).1.sheet.length ∧
    ∀ st : BotState, st.last_row_count ≤ st.sheet.length →
      (check_for_new_rows allOk st).1.last_row_count = st.sheet.length := by
  obtain ⟨h0, h1, h2, h3⟩ :=
    run_ops_inv sheet0.length ops (syncedState sheet0) [] (pollInv_init sheet0)
  refine ⟨h2, h3, h1, ?_⟩
  intro st hst
  rw [check_allOk_char]
  by_cases hlt : st.last_row_count < st.sheet.length
  · simp [hlt]
  · have heq : st.last_row_count = st.sheet.length := by omega
    simp [hlt, heq]

/-- Concrete instance of C2: one append then one poll from a synced
header-only sheet dispatches row 2 exactly once, and a poll from a
consistent state lands the cursor on the row count. -/
theorem C2_detector_exactly_once_witness :
    List.Pairwise (· < ·)
      (run_ops (syncedState [headerRow]) []
        [SheetOp.append ["d", "a", "1", "A", "P", ""], SheetOp.poll]).2 ∧
    (BotState.mk [headerRow] 1).last_row_count ≤
      (BotState.mk [headerRow] 1).sheet.length ∧
    (check_for_new_rows allOk (BotState.mk [headerRow] 1)).1.last_row_count =
      (BotState.mk [headerRow] 1).sheet.length :=
  ⟨(C2_detector_exactly_once [headerRow]
      [SheetOp.append ["d", "a", "1", "A", "P", ""], SheetOp.poll]).1,
    by decide,
    (C2_detector_exactly_once [] []).2.2.2 (BotState.mk [headerRow] 1) (by decide)⟩

/-- C3 counterexample: with the cursor at 5 but only 3 actual rows (rows
removed externally), a poll leaves the cursor at 5 — the actual row count
is not treated as ground truth and the cursor is not clamped down to it,
so the cursor ≤ row count invariant is not restored. -/
theorem C3_no_clamp_counterexample :
    (check_for_new_rows allOk (BotState.mk [["a"], ["b"], ["c"]] 5)).1.last_row_count = 5 ∧
    (check_for_new_rows allOk (BotState.mk [["a"], ["b"], ["c"]] 5)).1.sheet.length = 3 ∧
    ¬ (check_for_new_rows allOk
        (BotState.mk [["a"], ["b"], ["c"]] 5)).1.last_row_count ≤
      (check_for_new_rows allOk (BotState.mk [["a"], ["b"], ["c"]] 5)).1.sheet.length := by
  decide

/-- C3 (amended): the poll, append, delete and reset operations preserve
cursor ≤ row count whenever it already holds (delete and reset re-sync
the cursor to the count); but when the poll finds the cursor at or ahead
of the actual row count it leaves the state entirely unchanged — no
clamping to the actual count occurs, so after external row removal the
cursor can stay above the true row count until an explicit reset/delete
re-sync or until the count grows past it. -/
theorem C3_cursor_invariant_amended :
    (∀ (st : BotState) (ok : Nat → Bool), st.sheet.length ≤ st.last_row_count →
      check_for_new_rows ok st = (st, [], true)) ∧
    (∀ (st : BotState) (ok : Nat → Bool), st.last_row_count ≤ st.sheet.length →
      (check_for_new_rows ok st).1.last_row_count ≤
        (check_for_new_rows ok st).1.sheet.length) ∧
    (∀ st : BotState, (reset_position_command st).last_row_count =
      (reset_position_command st).sheet.length) ∧
    (∀ (st : BotState) (i : Nat), (delete_row_flow st i).last_row_count =
      (delete_row_flow st i).sheet.length) ∧
    (∀ (st : BotState) (r : Row), st.last_row_count ≤ st.sheet.length →
      (add_expense_to_sheet st r).last_row_count ≤
        (add_expense_to_sheet st r).sheet.length) := by
  refine ⟨?_, ?_, fun st => rfl, fun st i => rfl, ?_⟩
  · intro st ok h
    unfold check_for_new_rows
    rw [if_neg (by omega)]
  · intro st ok h
    unfold check_for_new_rows
    by_cases hlt : st.last_row_count < st.sheet.length
    · rw [if_pos hlt]
      by_cases hp : (dispatch_new_rows ok 0 st.last_row_count
          (st.sheet.drop st.last_row_count)).2
      · rw [if_pos hp]
      · rw [if_neg (by simp [hp])]
        exact h
    · rw [if_neg hlt]
      exact h
  · intro st r h
    show st.last_row_count ≤ (st.sheet ++ [r]).length
    rw [List.length_append]
    omega

/-- Concrete instance of C3 (amended) at cursor-ahead, consistent, reset,
delete and append states. -/
theorem C3_cursor_invariant_amended_witness :
    check_for_new_rows allOk (BotState.mk [["a"]] 3) = (BotState.mk [["a"]] 3, [], true) ∧
    (check_for_new_rows allOk (BotState.mk [["a"], ["b"]] 1)).1.last_row_count ≤
      (check_for_new_rows allOk (BotState.mk [["a"], ["b"]] 1)).1.sheet.length ∧
    (reset_position_command (BotState.mk [["a"]] 7)).last_row_count =
      (reset_position_command (BotState.mk [["a"]] 7)).sheet.length ∧
    (delete_row_flow (BotState.mk [["a"], ["b"]] 2) 2).last_row_count =
      (delete_row_flow (BotState.mk [["a"], ["b"]] 2) 2).sheet.length ∧
    (add_expense_to_sheet (BotState.mk [["a"]] 1) ["x"]).last_row_count ≤
      (add_expense_to_sheet (BotState.mk [["a"]] 1) ["x"]).sheet.length :=
  ⟨C3_cursor_invariant_amended.1 (BotState.mk [["a"]] 3) allOk (by decide),
    C3_cursor_invariant_amended.2.1 (BotState.mk [["a"], ["b"]] 1) allOk (by decide),
    C3_cursor_invariant_amended.2.2.1 (BotState.mk [["a"]] 7),
    C3_cursor_invariant_amended.2.2.2.1 (BotState.mk [["a"], ["b"]] 2) 2,
    C3_cursor_invariant_amended.2.2.2.2 (BotState.mk [["a"]] 1) ["x"] (by decide)⟩

/-- C4 counterexample: on sheet creation the cursor is initialized to the
full `get_all_values()` row count of the fresh sheet — 56, because the
reserved summary placeholders extend the value region to row 56 — not to
the header-row count 1 as claimed. -/
theorem C4_new_sheet_cursor_counterexample :
    get_last_row_count new_month_sheet = 56 ∧
    get_last_row_count new_month_sheet ≠ 1 := by
  decide

/-- C4 (amended): the cursor of a freshly created month sheet is
initialized to the sheet's full current row count (56: header plus the
reserved summary placeholders); since this is ≥ 1, every dispatched row
number of any later poll is ≥ 2, so the header row itself is never
dispatched as a notification. -/
theorem C4_new_sheet_cursor_amended :
    get_last_row_count new_month_sheet = new_month_sheet.length ∧
    get_last_row_count new_month_sheet = 56 ∧
    1 ≤ get_last_row_count new_month_sheet ∧
    ∀ (st : BotState) (ok : Nat → Bool) (j : Nat),
      1 ≤ st.last_row_count → j ∈ (check_for_new_rows ok st).2.1 → 2 ≤ j := by
  refine ⟨rfl, by decide, by decide, ?_⟩
  intro st ok j h1 hj
  have := check_sent_gt ok st j hj
  omega

/-- Concrete instance of C4 (amended): from a state with cursor 1 over a
header and one data row, the only dispatched row number is 2 — not the
header row 1. -/
theorem C4_new_sheet_cursor_amended_witness :
    2 ∈ (check_for_new_rows allOk
      (BotState.mk [headerRow, ["d", "a", "1", "A", "P", ""]] 1)).2.1 ∧ 2 ≤ 2 :=
  ⟨by decide,
    C4_new_sheet_cursor_amended.2.2.2
      (BotState.mk [headerRow, ["d", "a", "1", "A", "P", ""]] 1) allOk 2
      (by decide) (by decide)⟩

/-- C5: a quick-entry string with fewer than 4 pipe-separated fields, or
whose amount field does not parse as an integer, is rejected as a
validation error with zero side effects — the table store is left
unchanged, no row is written. -/
theorem C5_quick_entry_rejected (st : BotState) (dateStr text : String)
    (h : (pySplit '|' (pyStrip text)).length < 4 ∨
      pyParseInt ((pySplit '|' (pyStrip text)).getD 1 "") = none) :
    quick_add st dateStr text = st := by
  unfold quick_add quick_parse
  by_cases he : (pyStrip text).data.isEmpty
  · simp [he]
  · simp only [he, Bool.false_eq_true, if_false]
    by_cases h4 : (pySplit '|' (pyStrip text)).length < 4
    · simp [h4]
    · rcases h with hlen | hnone
      · exact absurd hlen h4
      · have hnone2 : pyParseInt ((pySplit '|' (pyStrip text))[1]?.getD "") = none := by
          simpa using hnone
        simp [h4, hnone2]

/-- Concrete instance of C5: the spec's example `Cafe|abc|Giải trí|Anh Tài`
has a non-integer amount field and writes nothing. -/
theorem C5_quick_entry_rejected_witness :
    pyParseInt ((pySplit '|' (pyStrip "Cafe|abc|Giải trí|Anh Tài")).getD 1 "") = none ∧
    quick_add (BotState.mk [] 0) "01/01/2025" "Cafe|abc|Giải trí|Anh Tài" =
      BotState.mk [] 0 :=
  ⟨by decide,
    C5_quick_entry_rejected (BotState.mk [] 0) "01/01/2025"
      "Cafe|abc|Giải trí|Anh Tài" (Or.inr (by decide))⟩

/-- C6 counterexample: the Amount step of the interactive flow accepts
"-5" (Python `int` accepts a sign), stores the negative amount -5 and
advances; the completed flow commits a record with amount -5 < 0 —
non-negativity is not enforced. -/
theorem C6_negative_amount_counterexample :
    (conv_step .amount emptyData "-5").1 = ConvState.category ∧
    (conv_step .amount emptyData "-5").2.1.amount = some (-5) ∧
    (conv_run .description emptyData ["x", "-5", "c", "p", "skip"]).2.2 =
      [ExpenseRecord.mk "x" (-5) "c" "p" ""] ∧
    (-5 : Int) < 0 := by
  decide

/-- C6 (amended): every input accepted by the Amount step stores exactly
the integer obtained by parsing the input after deleting ',' and '.'
characters — only integrality is enforced, not non-negativity, and
negative amounts are accepted. -/
theorem C6_amount_integer_amended :
    (∀ (d : UserData) (text : String),
      (conv_step .amount d text).1 = ConvState.category →
        ∃ a : Int, interactive_amount text = some a ∧
          (conv_step .amount d text).2.1.amount = some a) ∧
    (∀ (d : UserData) (text : String) (a : Int),
      interactive_amount text = some a →
        conv_step .amount d text =
          (ConvState.category, { d with amount := some a }, none)) ∧
    ∃ (t : String) (a : Int), interactive_amount t = some a ∧ a < 0 ∧
      (conv_step .amount emptyData t).1 = ConvState.category := by
  refine ⟨?_, ?_, ⟨"-5", -5, by decide, by decide, by decide⟩⟩
  · intro d text h
    cases hp : interactive_amount text with
    | none => simp [conv_step, hp] at h
    | some a => exact ⟨a, rfl, by simp [conv_step, hp]⟩
  · intro d text a hp
    simp [conv_step, hp]

/-- Concrete instance of C6 (amended): "50,000" is accepted and stored as
the integer 50000. -/
theorem C6_amount_integer_amended_witness :
    interactive_amount "50,000" = some 50000 ∧
    conv_step .amount emptyData "50,000" =
      (ConvState.category, { emptyData with amount := some 50000 }, none) :=
  ⟨by decide, C6_amount_integer_amended.2.1 emptyData "50,000" 50000 (by decide)⟩

/-- C7: if the Amount input fails to parse, the handler re-prompts and
returns AMOUNT: the state stays at Amount, `user_data` — in particular
the previously collected description — is unchanged, and nothing is
committed. -/
theorem C7_amount_failure_stays (d : UserData) (text : String)
    (h : interactive_amount text = none) :
    conv_step .amount d text = (ConvState.amount, d, none) := by
  simp [conv_step, h]

/-- Concrete instance of C7: "abc" fails to parse and leaves the session
(with its stored description) in the Amount state. -/
theorem C7_amount_failure_stays_witness :
    interactive_amount "abc" = none ∧
    conv_step .amount (UserData.mk (some "Ăn trưa") none none none) "abc" =
      (ConvState.amount, UserData.mk (some "Ăn trưa") none none none, none) :=
  ⟨by decide,
    C7_amount_failure_stays (UserData.mk (some "Ăn trưa") none none none) "abc"
      (by decide)⟩

/-! ## Helper lemmas: dict grouping -/

theorem dictGet_dictAdd (d : List (String × Nat)) (k k2 : String) (v : Nat) :
    dictGet (dictAdd d k v) k2 = if k2 = k then dictGet d k2 + v else dictGet d k2 := by
  unfold dictAdd dictGet
  by_cases hmem : d.any (fun p => p.1 == k)
  · simp only [hmem, if_true]
    have hcomp : (fun p : String × Nat => p.1 == k2) ∘
        (fun p : String × Nat => if p.1 == k then (p.1, p.2 + v) else p) =
        fun p : String × Nat => p.1 == k2 := by
      funext p
      by_cases hp : p.1 = k <;> simp [hp]
    rw [List.find?_map, hcomp]
    by_cases hk : k2 = k
    · subst hk
      have hsome : (d.find? (fun p => p.1 == k2)).isSome := by
        obtain ⟨p1, hp1, hb⟩ := List.any_eq_true.mp hmem
        exact List.find?_isSome.mpr ⟨p1, hp1, hb⟩
      obtain ⟨p0, hp0⟩ := Option.isSome_iff_exists.mp hsome
      rw [hp0]
      have hb : p0.1 = k2 := by simpa using List.find?_some hp0
      simp [hb]
    · cases hfind : d.find? (fun p => p.1 == k2) with
      | none => simp [hk]
      | some p0 =>
          have hb : p0.1 = k2 := by simpa using List.find?_some hfind
          have hne : ¬ p0.1 = k := by rw [hb]; exact hk
          simp [hne, hk]
  · simp only [hmem, Bool.false_eq_true, if_false]
    have hdnone : d.find? (fun p => p.1 == k) = none := by
      rw [List.find?_eq_none]
      intro x hx hpx
      exact hmem (List.any_eq_true.mpr ⟨x, hx, hpx⟩)
    rw [List.find?_append]
    by_cases hk : k2 = k
    · subst hk
      simp [hdnone]
    · have hkk2 : ((k, v).1 == k2) = false := by
        simp only [beq_eq_false_iff_ne]
        exact fun h => hk h.symm
      have hsingle : ([(k, v)] : List (String × Nat)).find? (fun p => p.1 == k2) = none := by
        simp [List.find?, hkk2]
      rw [hsingle]
      simp [hk]

theorem dictGet_fold (key : Row → String) (val : Row → Nat) :
    ∀ (l : List Row) (d : List (String × Nat)) (k : String),
    dictGet (l.foldl (fun acc r => dictAdd acc (key r) (val r)) d) k =
      dictGet d k + ((l.filter (fun r => key r == k)).map val).sum := by
  intro l
  induction l with
  | nil => intro d k; simp
  | cons r rs ih =>
      intro d k
      simp only [List.foldl_cons]
      rw [ih, dictGet_dictAdd]
      by_cases hk : k = key r
      · subst hk
        simp [List.filter_cons]
        omega
      · have hbeq : (key r == k) = false := by
          simp only [beq_eq_false_iff_ne]
          exact fun h => hk h.symm
        simp [List.filter_cons, hbeq, hk]

theorem dictGet_groupSums (key : Row → String) (rows : List Row) (k : String) :
    dictGet (groupSums key rows) k =
      ((rows.filter (fun r => key r == k)).map rowAmount).sum := by
  unfold groupSums
  simpa [dictGet] using dictGet_fold key rowAmount rows [] k

theorem get_monthly_summary_total (rows : List Row) :
    (get_monthly_summary rows).total =
      ((rows.filter validExpenseRow).map rowAmount).sum := by
  unfold get_monthly_summary
  by_cases he : (rows.filter validExpenseRow).isEmpty
  · rw [if_pos he]
    rw [List.isEmpty_iff] at he
    simp [he]
  · rw [if_neg he]

theorem get_monthly_summary_count (rows : List Row) :
    (get_monthly_summary rows).count = (rows.filter validExpenseRow).length := by
  unfold get_monthly_summary
  by_cases he : (rows.filter validExpenseRow).isEmpty
  · rw [if_pos he]
    rw [List.isEmpty_iff] at he
    simp [he]
  · rw [if_neg he]

theorem get_monthly_summary_average (rows : List Row) :
    (get_monthly_summary rows).average =
      if (get_monthly_summary rows).count = 0 then 0
      else ((get_monthly_summary rows).total : ℚ) /
        ((get_monthly_summary rows).count : ℚ) := by
  unfold get_monthly_summary
  by_cases he : (rows.filter validExpenseRow).isEmpty
  · rw [if_pos he]
    rw [List.isEmpty_iff] at he
    simp [he]
  · rw [if_neg he]
    have hne : (rows.filter validExpenseRow).length ≠ 0 := by
      rw [List.isEmpty_iff] at he
      simpa [List.length_eq_zero] using he
    simp [hne]

theorem get_monthly_summary_by_category (rows : List Row) (k : String) :
    dictGet (get_monthly_summary rows).by_category k =
      (((rows.filter validExpenseRow).filter
        (fun r => rowCategoryM r == k)).map rowAmount).sum := by
  unfold get_monthly_summary
  by_cases he : (rows.filter validExpenseRow).isEmpty
  · rw [if_pos he]
    rw [List.isEmpty_iff] at he
    simp [he, dictGet]
  · rw [if_neg he]
    exact dictGet_groupSums rowCategoryM (rows.filter validExpenseRow) k

theorem get_monthly_summary_by_person (rows : List Row) (k : String) :
    dictGet (get_monthly_summary rows).by_person k =
      (((rows.filter validExpenseRow).filter
        (fun r => rowPersonM r == k)).map rowAmount).sum := by
  unfold get_monthly_summary
  by_cases he : (rows.filter validExpenseRow).isEmpty
  · rw [if_pos he]
    rw [List.isEmpty_iff] at he
    simp [he, dictGet]
  · rw [if_neg he]
    exact dictGet_groupSums rowPersonM (rows.filter validExpenseRow) k

/-- C8 counterexample: `get_monthly_summary` does not map a
present-but-blank category or payer to the fixed unknown buckets — for a
single valid row with blank category and payer cells, the blank string
forms its own bucket and the 'Khác'/'Không rõ' buckets stay at 0. -/
theorem C8_blank_bucket_counterexample :
    validExpenseRow ["01/01/2025", "x", "100", "", ""] = true ∧
    (get_monthly_summary [["01/01/2025", "x", "100", "", ""]]).by_category =
      [("", 100)] ∧
    dictGet (get_monthly_summary [["01/01/2025", "x", "100", "", ""]]).by_category
      "Khác" = 0 ∧
    dictGet (get_monthly_summary [["01/01/2025", "x", "100", "", ""]]).by_person
      "Không rõ" = 0 := by
  decide

/-- C8 (amended): `get_monthly_summary` excludes rows whose amount cell is
not a comma-separated digit string (so never errors on them), and over the
remaining rows computes total, count, mean (0 when count is 0) and the
grouped sums — the spec's example evaluates as claimed; but only a
*missing* category/payer column maps to the fixed unknown bucket
('Khác'/'Không rõ'): a present-but-blank value keeps the blank string as
its own bucket.  (`calculate_summary_from_rows` does map blank-or-missing
to the unknown buckets, via `rowCategoryC`, but performs no amount
filtering of its own.) -/
theorem C8_aggregation_amended :
    ((get_monthly_summary
        [["d", "a", "100", "A", "P"], ["d", "b", "200", "B", "P"],
         ["d", "c", "50", "A", "P"]]).total = 350 ∧
      (get_monthly_summary
        [["d", "a", "100", "A", "P"], ["d", "b", "200", "B", "P"],
         ["d", "c", "50", "A", "P"]]).count = 3 ∧
      (get_monthly_summary
        [["d", "a", "100", "A", "P"], ["d", "b", "200", "B", "P"],
         ["d", "c", "50", "A", "P"]]).average = 350 / 3 ∧
      dictGet (get_monthly_summary
        [["d", "a", "100", "A", "P"], ["d", "b", "200", "B", "P"],
         ["d", "c", "50", "A", "P"]]).by_category "A" = 150 ∧
      dictGet (get_monthly_summary
        [["d", "a", "100", "A", "P"], ["d", "b", "200", "B", "P"],
         ["d", "c", "50", "A", "P"]]).by_category "B" = 200) ∧
    (∀ rows : List Row, (get_monthly_summary rows).total =
      ((rows.filter validExpenseRow).map rowAmount).sum) ∧
    (∀ rows : List Row, (get_monthly_summary rows).count =
      (rows.filter validExpenseRow).length) ∧
    (∀ rows : List Row, (get_monthly_summary rows).average =
      if (get_monthly_summary rows).count = 0 then 0
      else ((get_monthly_summary rows).total : ℚ) /
        ((get_monthly_summary rows).count : ℚ)) ∧
    (∀ (rows : List Row) (k : String),
      dictGet (get_monthly_summary rows).by_category k =
        (((rows.filter validExpenseRow).filter
          (fun r => rowCategoryM r == k)).map rowAmount).sum) ∧
    (∀ (rows : List Row) (k : String),
      dictGet (get_monthly_summary rows).by_person k =
        (((rows.filter validExpenseRow).filter
          (fun r => rowPersonM r == k)).map rowAmount).sum) ∧
    (∀ r : Row, r.length ≤ 3 → rowCategoryM r = "Khác") ∧
    (∀ r : Row, 3 < r.length → (pyStrip (r.getD 3 "")).data.isEmpty = true →
      rowCategoryC r = "Khác") := by
  refine ⟨⟨?_, ?_, ?_, ?_, ?_⟩, get_monthly_summary_total, get_monthly_summary_count,
    get_monthly_summary_average, get_monthly_summary_by_category,
    get_monthly_summary_by_person, ?_, ?_⟩
  · rw [get_monthly_summary_total]
    decide
  · rw [get_monthly_summary_count]
    decide
  · rw [get_monthly_summary_average, get_monthly_summary_total,
      get_monthly_summary_count]
    rw [show ((([["d", "a", "100", "A", "P"], ["d", "b", "200", "B", "P"],
        ["d", "c", "50", "A", "P"]].filter validExpenseRow).map rowAmount).sum : Nat) =
        350 from by decide,
      show (([["d", "a", "100", "A", "P"], ["d", "b", "200", "B", "P"],
        ["d", "c", "50", "A", "P"]].filter validExpenseRow).length : Nat) = 3 from by
        decide]
    norm_num
  · rw [get_monthly_summary_by_category]
    decide
  · rw [get_monthly_summary_by_category]
    decide
  · intro r h
    unfold rowCategoryM
    rw [if_neg (by omega)]
  · intro r h3 hblank
    have hb2 : (pyStrip (r.getD 3 "")).data = [] := List.isEmpty_iff.mp hblank
    have hb3 : (pyStrip r[3]).data = [] := by
      rwa [List.getD_eq_getElem r "" h3] at hb2
    unfold rowCategoryC
    rw [if_neg (by simp [h3, hb3])]

/-- Concrete instance of C8 (amended): a row set whose only row has a
non-parsing amount contributes nothing to the total, a 3-column row falls
in the 'Khác' bucket, and a blank (whitespace) category cell falls in
'Khác' under `calculate_summary_from_rows`. -/
theorem C8_aggregation_amended_witness :
    (get_monthly_summary [["d", "x", "abc", "A", "P"]]).total =
      (([["d", "x", "abc", "A", "P"]].filter validExpenseRow).map rowAmount).sum ∧
    rowCategoryM ["d", "x", "100"] = "Khác" ∧
    rowCategoryC ["d", "x", "100", " ", "P"] = "Khác" :=
  ⟨C8_aggregation_amended.2.1 [["d", "x", "abc", "A", "P"]],
    C8_aggregation_amended.2.2.2.2.2.2.1 ["d", "x", "100"] (by decide),
    C8_aggregation_amended.2.2.2.2.2.2.2 ["d", "x", "100", " ", "P"] (by decide)
      (by decide)⟩

/-! ## Helper lemmas: the two stable insertion sorts of compare_command -/

theorem chLt_asymm : ∀ {as bs : List Char}, chLt as bs = true → chLt bs as = false := by
  intro as
  induction as with
  | nil =>
      intro bs h
      cases bs with
      | nil => simp [chLt] at h
      | cons b bs => rfl
  | cons a as ih =>
      intro bs h
      cases bs with
      | nil => simp [chLt] at h
      | cons b bs =>
          by_cases h1 : a < b
          · have h2 : ¬ b < a := lt_asymm h1
            simp only [chLt, if_neg h2, if_pos h1]
          · by_cases h2 : b < a
            · simp only [chLt, if_neg h1, if_pos h2] at h
              exact absurd h (by simp)
            · simp only [chLt, if_neg h1, if_neg h2] at h
              simp only [chLt, if_neg h1, if_neg h2]
              exact ih h

theorem chLt_trans : ∀ {as bs cs : List Char},
    chLt as bs = true → chLt bs cs = true → chLt as cs = true := by
  intro as
  induction as with
  | nil =>
      intro bs cs h1 h2
      cases bs with
      | nil => simp [chLt] at h1
      | cons b bs =>
          cases cs with
          | nil => simp [chLt] at h2
          | cons c cs => rfl
  | cons a as ih =>
      intro bs cs h1 h2
      cases bs with
      | nil => simp [chLt] at h1
      | cons b bs =>
          cases cs with
          | nil => simp [chLt] at h2
          | cons c cs =>
              by_cases hab : a < b
              · by_cases hbc : b < c
                · simp only [chLt, if_pos (lt_trans hab hbc)]
                · by_cases hcb : c < b
                  · simp only [chLt, if_neg hbc, if_pos hcb] at h2
                    exact absurd h2 (by simp)
                  · have hbceq : b = c := le_antisymm (not_lt.mp hcb) (not_lt.mp hbc)
                    subst hbceq
                    simp only [chLt, if_pos hab]
              · by_cases hba : b < a
                · simp only [chLt, if_neg hab, if_pos hba] at h1
                  exact absurd h1 (by simp)
                · have habeq : a = b := le_antisymm (not_lt.mp hba) (not_lt.mp hab)
                  subst habeq
                  simp only [chLt] at h1
                  rw [if_neg hab, if_neg hab] at h1
                  by_cases hac : a < c
                  · simp only [chLt, if_pos hac]
                  · by_cases hca : c < a
                    · simp only [chLt, if_neg hac, if_pos hca] at h2
                      exact absurd h2 (by simp)
                    · simp only [chLt, if_neg hac, if_neg hca] at h2 ⊢
                      exact ih h1 h2

theorem pyStrLt_asymm {s t : String} (h : pyStrLt s t = true) :
    pyStrLt t s = false :=
  chLt_asymm h

theorem pyStrLt_trans {s t u : String} (h1 : pyStrLt s t = true)
    (h2 : pyStrLt t u = true) : pyStrLt s u = true :=
  chLt_trans h1 h2

theorem mem_insertByNameDesc {a x : MonthData} : ∀ {l : List MonthData},
    a ∈ insertByNameDesc x l ↔ a = x ∨ a ∈ l := by
  intro l
  induction l with
  | nil => simp [insertByNameDesc]
  | cons y ys ih =>
      simp only [insertByNameDesc]
      by_cases h : pyStrLt y.name x.name
      · simp [h]
      · simp only [h, Bool.false_eq_true, if_false, List.mem_cons, ih]
        tauto

theorem pairwise_insertByNameDesc (x : MonthData) :
    ∀ {l : List MonthData}, l.Pairwise (fun a b => pyStrLt a.name b.name = false) →
      (insertByNameDesc x l).Pairwise
        (fun a b => pyStrLt a.name b.name = false) := by
  intro l
  induction l with
  | nil => intro _; simp [insertByNameDesc]
  | cons y ys ih =>
      intro h
      obtain ⟨hy, hys⟩ := List.pairwise_cons.mp h
      by_cases hlt : pyStrLt y.name x.name
      · simp only [insertByNameDesc, if_pos hlt]
        refine List.pairwise_cons.mpr ⟨?_, h⟩
        intro b hb
        rcases List.mem_cons.mp hb with rfl | hb2
        · exact pyStrLt_asymm hlt
        · have hyb := hy b hb2
          by_cases hxb : pyStrLt x.name b.name
          · have := pyStrLt_trans hlt hxb
            rw [this] at hyb
            exact absurd hyb (by simp)
          · simpa using hxb
      · simp only [insertByNameDesc, hlt, Bool.false_eq_true, if_false]
        refine List.pairwise_cons.mpr ⟨?_, ih hys⟩
        intro b hb
        rcases mem_insertByNameDesc.mp hb with rfl | hb2
        · simpa using hlt
        · exact hy b hb2

theorem pairwise_sortByNameDesc (l : List MonthData) :
    (sortByNameDesc l).Pairwise (fun a b => pyStrLt a.name b.name = false) := by
  have haux : ∀ (l2 acc : List MonthData),
      acc.Pairwise (fun a b => pyStrLt a.name b.name = false) →
      (l2.foldl (fun acc x => insertByNameDesc x acc) acc).Pairwise
        (fun a b => pyStrLt a.name b.name = false) := by
    intro l2
    induction l2 with
    | nil => intro acc h; exact h
    | cons y ys ih =>
        intro acc h
        exact ih _ (pairwise_insertByNameDesc y h)
  exact haux l [] List.Pairwise.nil

theorem mem_insertByAbsDesc {a x : CategoryChange} : ∀ {l : List CategoryChange},
    a ∈ insertByAbsDesc x l ↔ a = x ∨ a ∈ l := by
  intro l
  induction l with
  | nil => simp [insertByAbsDesc]
  | cons y ys ih =>
      simp only [insertByAbsDesc]
      by_cases h : y.2.1.natAbs < x.2.1.natAbs
      · simp [h]
      · simp only [if_neg h, List.mem_cons, ih]
        tauto

theorem pairwise_insertByAbsDesc (x : CategoryChange) :
    ∀ {l : List CategoryChange},
      l.Pairwise (fun a b => b.2.1.natAbs ≤ a.2.1.natAbs) →
      (insertByAbsDesc x l).Pairwise (fun a b => b.2.1.natAbs ≤ a.2.1.natAbs) := by
  intro l
  induction l with
  | nil => intro _; simp [insertByAbsDesc]
  | cons y ys ih =>
      intro h
      obtain ⟨hy, hys⟩ := List.pairwise_cons.mp h
      by_cases hlt : y.2.1.natAbs < x.2.1.natAbs
      · simp only [insertByAbsDesc, if_pos hlt]
        refine List.pairwise_cons.mpr ⟨?_, h⟩
        intro b hb
        rcases List.mem_cons.mp hb with rfl | hb2
        · omega
        · have := hy b hb2
          omega
      · simp only [insertByAbsDesc, if_neg hlt]
        refine List.pairwise_cons.mpr ⟨?_, ih hys⟩
        intro b hb
        rcases mem_insertByAbsDesc.mp hb with rfl | hb2
        · omega
        · exact hy b hb2

theorem pairwise_sortByAbsDesc (l : List CategoryChange) :
    (sortByAbsDesc l).Pairwise (fun a b => b.2.1.natAbs ≤ a.2.1.natAbs) := by
  have haux : ∀ (l2 acc : List CategoryChange),
      acc.Pairwise (fun a b => b.2.1.natAbs ≤ a.2.1.natAbs) →
      (l2.foldl (fun acc x => insertByAbsDesc x acc) acc).Pairwise
        (fun a b => b.2.1.natAbs ≤ a.2.1.natAbs) := by
    intro l2
    induction l2 with
    | nil => intro acc h; exact h
    | cons y ys ih =>
        intro acc h
        exact ih _ (pairwise_insertByAbsDesc y h)
  exact haux l [] List.Pairwise.nil

theorem mem_sortByAbsDesc {a : CategoryChange} (l : List CategoryChange)
    (h : a ∈ sortByAbsDesc l) : a ∈ l := by
  have haux : ∀ (l2 acc : List CategoryChange),
      a ∈ l2.foldl (fun acc x => insertByAbsDesc x acc) acc → a ∈ l2 ∨ a ∈ acc := by
    intro l2
    induction l2 with
    | nil => intro acc h2; exact Or.inr h2
    | cons y ys ih =>
        intro acc h2
        rcases ih _ h2 with h3 | h3
        · exact Or.inl (List.mem_cons_of_mem y h3)
        · rcases mem_insertByAbsDesc.mp h3 with rfl | h4
          · exact Or.inl (List.mem_cons_self _ _)
          · exact Or.inr h4
  rcases haux l [] h with h2 | h2
  · exact h2
  · simp at h2

theorem compare_command_spec (months : List MonthData) (r : CompareReport)
    (h : compare_command months = some r) :
    (∃ rest, sortByNameDesc (months.filter (fun m => 0 < m.total)) =
      r.current :: r.previous :: rest) ∧
    r.diff = (r.current.total : Int) - (r.previous.total : Int) ∧
    (0 < r.previous.total →
      r.diff_percent = (r.diff : ℚ) / (r.previous.total : ℚ) * 100) ∧
    (∀ x ∈ r.category_changes,
      10000 < x.2.1.natAbs ∧
      x.2.1 = (dictGet r.current.by_category x.1 : Int) -
        (dictGet r.previous.by_category x.1 : Int)) ∧
    r.category_changes.Pairwise (fun a b => b.2.1.natAbs ≤ a.2.1.natAbs) := by
  simp only [compare_command] at h
  by_cases hlen : (months.filter (fun m => 0 < m.total)).length < 2
  · rw [if_pos hlen] at h
    simp at h
  · rw [if_neg hlen] at h
    cases hs : sortByNameDesc (months.filter (fun m => 0 < m.total)) with
    | nil => rw [hs] at h; simp at h
    | cons c tail =>
      cases tail with
      | nil => rw [hs] at h; simp at h
      | cons p rest =>
        rw [hs] at h
        have hr := Option.some.inj h
        subst hr
        dsimp only
        refine ⟨⟨rest, rfl⟩, rfl, ?_, ?_, ?_⟩
        · intro hp
          rw [if_pos hp]
        · intro x hx
          have hx2 : x ∈ sortByAbsDesc ((c.by_category.map Prod.fst ++
              p.by_category.map Prod.fst).eraseDups.filterMap (fun c0 =>
                if 10000 < ((dictGet c.by_category c0 : Int) -
                    (dictGet p.by_category c0 : Int)).natAbs then
                  some (c0, (dictGet c.by_category c0 : Int) -
                    (dictGet p.by_category c0 : Int),
                    dictGet c.by_category c0, dictGet p.by_category c0)
                else none)) := List.mem_of_mem_take hx
          have hx3 := mem_sortByAbsDesc _ hx2
          obtain ⟨c0, _, heq⟩ := List.mem_filterMap.mp hx3
          by_cases hcond : 10000 < ((dictGet c.by_category c0 : Int) -
              (dictGet p.by_category c0 : Int)).natAbs
          · rw [if_pos hcond] at heq
            have hxeq := Option.some.inj heq
            subst hxeq
            exact ⟨hcond, rfl⟩
          · rw [if_neg hcond] at heq
            cases heq
        · exact (pairwise_sortByAbsDesc _).sublist (List.take_sublist _ _)

/-- C9 counterexample: ordering period sheets by name descending is
lexicographic string order, not chronological order: with non-empty
periods (2025, 9) (total 300000) and (2025, 10) (total 400000), the sheet
reported as current is "Tháng 9 2025" — the chronologically older period
(9 < 10) — and "Tháng 10 2025", the most recent period, is demoted to
previous, so the reported delta is -100000 instead of the claimed
+100000. -/
theorem C9_name_order_counterexample :
    (compare_command
        [MonthData.mk (get_sheet_name_for_month 2025 9) 300000 [],
         MonthData.mk (get_sheet_name_for_month 2025 10) 400000 []]).map
      (fun r => (r.current.name, r.previous.name, r.diff)) =
      some (get_sheet_name_for_month 2025 9, get_sheet_name_for_month 2025 10,
        (-100000 : Int)) ∧
    9 < 10 := by
  decide

/-- C9 (amended): the month comparison sorts the non-empty periods by
sheet name descending in lexicographic string order — which is the most
recent period first only when lexicographic and chronological order agree
(not, e.g., for "Tháng 9 2025" vs "Tháng 10 2025") — takes the first two
as current and previous, reports delta = current total - previous total
and percentage delta = delta / previous total * 100, and reports only
category deltas with absolute change strictly above 10000, sorted by
absolute change descending (top 5); with totals 400000 vs 300000 under
chronology-compatible names the delta is +100000 and the percentage
100/3 ≈ +33.3%. -/
theorem C9_compare_amended :
    (∀ l : List MonthData,
      (sortByNameDesc l).Pairwise (fun a b => pyStrLt a.name b.name = false)) ∧
    (∀ (months : List MonthData) (r : CompareReport),
      compare_command months = some r →
      (∃ rest, sortByNameDesc (months.filter (fun m => 0 < m.total)) =
        r.current :: r.previous :: rest) ∧
      r.diff = (r.current.total : Int) - (r.previous.total : Int) ∧
      (0 < r.previous.total →
        r.diff_percent = (r.diff : ℚ) / (r.previous.total : ℚ) * 100) ∧
      (∀ x ∈ r.category_changes,
        10000 < x.2.1.natAbs ∧
        x.2.1 = (dictGet r.current.by_category x.1 : Int) -
          (dictGet r.previous.by_category x.1 : Int)) ∧
      r.category_changes.Pairwise (fun a b => b.2.1.natAbs ≤ a.2.1.natAbs)) ∧
    ((compare_command
        [MonthData.mk (get_sheet_name_for_month 2025 11) 400000 [],
         MonthData.mk (get_sheet_name_for_month 2025 10) 300000 []]).map
      (fun r => (r.current.name, r.current.total, r.previous.name,
        r.previous.total, r.diff)) =
      some (get_sheet_name_for_month 2025 11, 400000,
        get_sheet_name_for_month 2025 10, 300000, (100000 : Int))) ∧
    (∀ r : CompareReport,
      compare_command
        [MonthData.mk (get_sheet_name_for_month 2025 11) 400000 [],
         MonthData.mk (get_sheet_name_for_month 2025 10) 300000 []] = some r →
      r.diff_percent = 100 / 3) := by
  refine ⟨pairwise_sortByNameDesc, compare_command_spec, by decide, ?_⟩
  intro r hr
  have hspec := compare_command_spec _ r hr
  have htuple : (some r).map
      (fun r : CompareReport => (r.current.name, r.current.total, r.previous.name,
        r.previous.total, r.diff)) =
      some (get_sheet_name_for_month 2025 11, 400000,
        get_sheet_name_for_month 2025 10, 300000, (100000 : Int)) := by
    rw [← hr]
    decide
  have hinj : r.current.name = get_sheet_name_for_month 2025 11 ∧
      r.current.total = 400000 ∧
      r.previous.name = get_sheet_name_for_month 2025 10 ∧
      r.previous.total = 300000 ∧ r.diff = 100000 := by
    simpa using htuple
  have h4 := hinj.2.2.2.1
  have h5 := hinj.2.2.2.2
  have hp := hspec.2.2.1 (by omega)
  rw [hp, h5, h4]
  norm_num

/-- Concrete instance of C9 (amended): the two-month example with
chronology-compatible names sorts descending, and its report carries the
percentage delta 100/3 (+33.3%). -/
theorem C9_compare_amended_witness :
    List.Pairwise (fun a b => pyStrLt a.name b.name = false)
      (sortByNameDesc
        [MonthData.mk (get_sheet_name_for_month 2025 11) 400000 [],
         MonthData.mk (get_sheet_name_for_month 2025 10) 300000 []]) ∧
    (CompareReport.mk (MonthData.mk (get_sheet_name_for_month 2025 11) 400000 [])
      (MonthData.mk (get_sheet_name_for_month 2025 10) 300000 [])
      100000 (100 / 3) []).diff_percent = 100 / 3 := by
  constructor
  · exact C9_compare_amended.1 _
  · refine C9_compare_amended.2.2.2 _ ?_
    simp only [compare_command]
    rw [if_neg (by decide)]
    have hs : sortByNameDesc
        (([MonthData.mk (get_sheet_name_for_month 2025 11) 400000 [],
           MonthData.mk (get_sheet_name_for_month 2025 10) 300000 []]).filter
          (fun m => 0 < m.total)) =
        [MonthData.mk (get_sheet_name_for_month 2025 11) 400000 [],
         MonthData.mk (get_sheet_name_for_month 2025 10) 300000 []] := by
      decide
    rw [hs]
    simp only [Option.some.injEq, CompareReport.mk.injEq]
    refine ⟨trivial, trivial, by decide, ?_, by decide⟩
    rw [if_pos (by norm_num)]
    norm_num

/-- C10: the two entry paths parse amounts by different grammars — the
interactive Amount step deletes every ',' and '.' before integer-parsing
while quick-entry integer-parses the raw field — so the input "50,000" is
committed as 50000 by the interactive flow but the same amount inside a
quick-entry string fails validation and writes no row. -/
theorem C10_amount_grammar_divergence :
    interactive_amount "50,000" = some 50000 ∧
    (conv_run .description emptyData
      ["Cafe", "50,000", "Giải trí", "Anh Tài", "skip"]).2.2 =
      [ExpenseRecord.mk "Cafe" 50000 "Giải trí" "Anh Tài" ""] ∧
    pyParseInt "50,000" = none ∧
    quick_parse "Cafe|50,000|Giải trí|Anh Tài" = none ∧
    quick_add (BotState.mk [headerRow] 1) "01/01/2025"
      "Cafe|50,000|Giải trí|Anh Tài" = BotState.mk [headerRow] 1 := by
  decide
